import Mathlib

/-!
Verification of the kohzu-controller driver (changhui-pal/kohzu-controller).

Shallow embedding of the protocol and controller layers:
strings are modelled as lists of characters (`Str`), C++ containers as
Lean lists, and each translated function mirrors the control flow of the
corresponding C++ function.  The repository carries several source
revisions; where a header and a .cpp file both define the same symbol
(Parser), the in-class header definition is the one any translation unit
actually links against (the out-of-line copy in Parser.cpp would be a
redefinition), so the header is embedded as the authoritative version and
the stale copy is embedded separately for comparison.
-/

set_option autoImplicit false

/-- C++ std::string modelled as a list of characters. -/
abbrev Str := List Char

/-- ASCII digit test, matching std::isdigit in the "C" locale. -/
def isAsciiDigit (c : Char) : Bool :=
  '0' ≤ c && c ≤ '9'

/-- ASCII uppercase conversion, matching std::toupper in the "C" locale:
letters a-z map to A-Z, everything else is unchanged. -/
def asciiToUpper (c : Char) : Char :=
  if 'a' ≤ c && c ≤ 'z' then Char.ofNat (c.toNat - 32) else c

namespace Parser

/-- Embeds `Response` from include/protocol/Parser.hpp. -/
structure Response where
  type : Char := Char.ofNat 0
  cmd : Str := []
  axis : Str := []
  params : List Str := []
  raw : Str := []
  valid : Bool := false
deriving Repr, DecidableEq

/-- Embeds `split_keep_empty` from include/protocol/Parser.hpp: split on the
delimiter, keeping empty tokens; the trailing token is always pushed, so the
result is never the empty list. -/
def split_keep_empty : Str → Char → List Str
  | [], _ => [[]]
  | c :: rest, delim =>
    if c = delim then
      [] :: split_keep_empty rest delim
    else
      match split_keep_empty rest delim with
      | t :: ts => (c :: t) :: ts
      | [] => [[c]]

/-- Embeds `is_all_digits` from include/protocol/Parser.hpp. -/
def is_all_digits (s : Str) : Bool :=
  !s.isEmpty && s.all isAsciiDigit

/-- Embeds `upper_n` from include/protocol/Parser.hpp. -/
def upper_n (src : Str) (n : Nat) : Str :=
  (src.take n).map asciiToUpper

/-- The payload of an inbound line after the type character: one optional
leading TAB is consumed (Parser.hpp lines 84-95).  Defined for lines of
length ≥ 2; `Parser.parse` rejects shorter lines before using it. -/
def restOf : Str → Str
  | [] => []
  | _ :: rest0 =>
    match rest0 with
    | '\t' :: r => r
    | r => r

/-- The TAB-separated fields of an inbound line (payload split on TAB). -/
def fieldsOf (line : Str) : List Str :=
  split_keep_empty (restOf line) '\t'

/-- Embeds `Parser::parse` from include/protocol/Parser.hpp (the in-class
definition, which is the one all translation units link against).  Record
updates mirror the sequential mutation of `resp`: fields assigned before an
early `return` are present in the returned invalid response. -/
def parse (line : Str) : Response :=
  let resp0 : Response := { raw := line }
  match line with
  | [] => resp0
  | first :: rest0 =>
    if first = 'C' ∨ first = 'W' ∨ first = 'E' then
      let resp1 := { resp0 with type := first }
      if rest0 = [] then
        resp1
      else
        let fields := fieldsOf line
        match fields with
        | [] => resp1
        | cmdField :: fieldsTail =>
          if cmdField.length < 3 then
            resp1
          else
            let resp2 := { resp1 with cmd := upper_n cmdField 3 }
            let tail := cmdField.drop 3
            if cmdField.length > 3 ∧ ¬ is_all_digits tail then
              resp2
            else
              let resp3 :=
                { resp2 with axis := if cmdField.length > 3 then tail else [] }
              if resp3.cmd = ['S', 'Y', 'S'] then
                { resp3 with
                  axis := []
                  params :=
                    match fieldsTail with
                    | [] => []
                    | f1 :: _ => if f1 = [] then [] else [f1]
                  valid := true }
              else
                { resp3 with params := fieldsTail, valid := true }
    else
      resp0

end Parser

namespace ParserCpp

/-- Embeds `split_by_tab` from src/protocol/Parser.cpp: unlike the header's
split_keep_empty it yields an empty list for empty input and drops the token
after a trailing delimiter. -/
def split_by_tab : Str → List Str
  | [] => []
  | c :: rest =>
    if c = '\t' then
      [] :: split_by_tab rest
    else
      match split_by_tab rest with
      | t :: ts => (c :: t) :: ts
      | [] => [[c]]

/-- Embeds the stale out-of-line `Parser::parse` from src/protocol/Parser.cpp.
This copy differs from the header version (it keeps every trailing field of
a SYS line and only special-cases SYS on a non-digit tail); it cannot be
linked together with the header definition and is embedded only to record
the divergence between the two revisions. -/
def parse (line : Str) : Parser.Response :=
  let resp0 : Parser.Response := { raw := line }
  match line with
  | [] => resp0
  | first :: rest0 =>
    if first = 'C' ∨ first = 'W' ∨ first = 'E' then
      let resp1 := { resp0 with type := first }
      if rest0 = [] then
        resp1
      else
        let payload :=
          match rest0 with
          | '\t' :: r => r
          | r => r
        let fields := split_by_tab payload
        match fields with
        | [] => resp1
        | cmdField :: fieldsTail =>
          if cmdField.length < 3 then
            resp1
          else
            let resp2 := { resp1 with cmd := Parser.upper_n cmdField 3 }
            if cmdField.length > 3 then
              let axisPart := cmdField.drop 3
              if Parser.is_all_digits axisPart then
                { resp2 with axis := axisPart, params := fieldsTail, valid := true }
              else if resp2.cmd = ['S', 'Y', 'S'] then
                { resp2 with axis := [], params := axisPart :: fieldsTail, valid := true }
              else
                resp2
            else
              { resp2 with params := fieldsTail, valid := true }
    else
      resp0

end ParserCpp

namespace CommandBuilder

/-- Parameter sanitation from CommandBuilder::makeCommand: every embedded CR
and LF character is removed (the two erase/remove passes). -/
def sanitize (p : Str) : Str :=
  (p.filter (· ≠ '\r')).filter (· ≠ '\n')

/-- The parameter-joining loop of CommandBuilder::makeCommand: a '/' is
pushed before every parameter except the first, then the sanitized
parameter is appended. -/
def joinLoop : List Str → Bool → Str
  | [], _ => []
  | p :: rest, first =>
    (if first then [] else ['/']) ++ sanitize p ++ joinLoop rest false

/-- Embeds `CommandBuilder::makeCommand` from include/protocol/CommandBuilder.hpp. -/
def makeCommand (cmd : Str) (params : List Str) (includeSTX : Bool) : Str :=
  (if includeSTX then [Char.ofNat 0x02] else [])
    ++ cmd
    ++ (if params = [] then [] else '\t' :: joinLoop params true)
    ++ ['\r', '\n']

/-- Strings joined by a single '/' between consecutive entries, as the
specification words it. -/
def joinedBySlash : List Str → Str
  | [] => []
  | [p] => p
  | p :: q :: rest => p ++ '/' :: joinedBySlash (q :: rest)

/-- The encoding as the specification words it: command, then — when
parameters are present — one TAB and the sanitized parameters joined by
'/', then CRLF.  Stated independently of the loop in the source, to be
compared with the source translation `makeCommand`. -/
def makeCommandSpec (cmd : Str) (params : List Str) : Str :=
  cmd
    ++ (if params.isEmpty then [] else '\t' :: joinedBySlash (params.map sanitize))
    ++ ['\r', '\n']

end CommandBuilder

namespace Dispatcher

/-- Embeds the Dispatcher pending map (src/protocol/Dispatcher.cpp): an
unordered_map from key to a deque of promises.  Promises are identified by
the Nat id handed out at registration; `nextId` generates fresh ids. -/
structure State where
  pending : List (Str × List Nat)
  nextId : Nat
deriving Repr, DecidableEq

/-- The deque held for a key (empty when the key has no entry). -/
def lookupSlots : List (Str × List Nat) → Str → List Nat
  | [], _ => []
  | (k, q) :: rest, key => if k = key then q else lookupSlots rest key

/-- The effect of `pending_[key].push_back(prom)`: append to the key's deque,
creating the entry when absent. -/
def pushSlot : List (Str × List Nat) → Str → Nat → List (Str × List Nat)
  | [], key, i => [(key, [i])]
  | (k, q) :: rest, key, i =>
    if k = key then (k, q ++ [i]) :: rest else (k, q) :: pushSlot rest key i

/-- Embeds `Dispatcher::addPending`: registers a fresh promise at the tail of
the key's deque and returns its id (the future handed to the caller). -/
def addPending (key : Str) (s : State) : Nat × State :=
  (s.nextId, { pending := pushSlot s.pending key s.nextId, nextId := s.nextId + 1 })

/-- The pop performed by tryFulfill / removePendingWithException: take the
front promise of the key's deque (erasing the entry when it empties), or
nothing when the key is absent or the deque empty. -/
def popSlot : List (Str × List Nat) → Str → Option Nat × List (Str × List Nat)
  | [], _ => (none, [])
  | (k, q) :: rest, key =>
    if k = key then
      match q with
      | [] => (none, (k, q) :: rest)
      | h :: t => (some h, if t = [] then rest else (k, t) :: rest)
    else
      let r := popSlot rest key
      (r.1, (k, q) :: r.2)

/-- Embeds `Dispatcher::tryFulfill`: pops the front promise for the key and
resolves it with the reply.  Returns the id of the promise that received the
reply (`none` models the `return false` path). -/
def tryFulfill (key : Str) (s : State) : Option Nat × State :=
  let r := popSlot s.pending key
  (r.1, { s with pending := r.2 })

/-- Embeds `Dispatcher::removePendingWithException`: pops the front promise
for the key and resolves it with a runtime_error carrying the message. -/
def removePendingWithException (key : Str) (message : Str) (s : State) :
    Option (Nat × Str) × State :=
  let r := popSlot s.pending key
  (r.1.map (fun i => (i, message)), { s with pending := r.2 })

/-- Embeds `Dispatcher::cancelAllPendingWithException`: moves every promise
out of the map (clearing it) and resolves each with the exception message. -/
def cancelAllPendingWithException (message : Str) (s : State) :
    List (Nat × Str) × State :=
  ((s.pending.flatMap (fun e => e.2)).map (fun i => (i, message)),
   { pending := [], nextId := s.nextId })

/-- Folding `tryFulfill` over a sequence of replies arriving for one key, in
arrival order, recording each (promise id, reply) resolution; an unmatched
reply (no pending promise) resolves nothing, as in the controller's line
handler where it is routed to notifySpontaneous instead. -/
def runFulfills (key : Str) (replies : List Parser.Response) (s : State) :
    List (Nat × Parser.Response) × State :=
  match replies with
  | [] => ([], s)
  | r :: rs =>
    let step := tryFulfill key s
    match step.1 with
    | some i =>
      let rec1 := runFulfills key rs step.2
      ((i, r) :: rec1.1, rec1.2)
    | none => runFulfills key rs step.2

/-- The unordered_map key-uniqueness invariant of the pending map. -/
def keysNodup (p : List (Str × List Nat)) : Prop :=
  (p.map Prod.fst).Nodup

end Dispatcher

namespace MotorController

/-- Embeds `Impl::movementCommands` from src/controller/MotorController.cpp. -/
def movementCommands : List Str := ["APS".data, "MPS".data, "RPS".data]

/-- Embeds `Impl::makeKey` from src/controller/MotorController.cpp: the
submit-side correlation key is the command, extended with a colon and the
first parameter only when a non-empty first parameter is present. -/
def makeKey (cmd : Str) (params : List Str) : Str :=
  match params with
  | [] => cmd
  | p0 :: _ => if p0 = [] then cmd else cmd ++ ':' :: p0

/-- The reply-side key built in the recv handler registered by
`MotorController::start` (lines 124-128): the parsed command, extended with
a colon and the parsed axis only when the axis is non-empty. -/
def recvKey (cmd : Str) (axis : Str) : Str :=
  if axis = [] then cmd else cmd ++ ':' :: axis

/-- Whitespace skipped by std::stoi (std::isspace, "C" locale). -/
def isCSpace (c : Char) : Bool :=
  c = ' ' || c = '\t' || c = '\n' || c = Char.ofNat 0x0b || c = Char.ofNat 0x0c || c = '\r'

/-- Decimal value of a run of ASCII digits. -/
def digitsToNat (ds : Str) : Nat :=
  ds.foldl (fun acc c => acc * 10 + (c.toNat - '0'.toNat)) 0

/-- std::stoi on the int range: skip whitespace, one optional sign, a
non-empty run of decimal digits; out-of-range or no digits throw (none). -/
def stoi (s : Str) : Option Int :=
  let s1 := s.dropWhile isCSpace
  let signed : Bool × Str :=
    match s1 with
    | '-' :: r => (true, r)
    | '+' :: r => (false, r)
    | r => (false, r)
  let digits := signed.2.takeWhile isAsciiDigit
  if digits = [] then none
  else
    let v : Int := if signed.1 then -(digitsToNat digits : Int) else (digitsToNat digits : Int)
    if v < -2147483648 ∨ 2147483647 < v then none else some v

/-- Embeds `Impl::parseAxisFromParams`: std::stoi of params[0], with every
failure (missing, non-numeric, out of range) mapped to -1 by the catch. -/
def parseAxisFromParams (params : List Str) : Int :=
  match params with
  | [] => -1
  | p0 :: _ =>
    match stoi p0 with
    | some v => v
    | none => -1

/-- Observable actions of the callback pipeline, in program order. -/
inductive Event where
  | enqueued (line : Str)
  | opStart (axis : Int)
  | taskQueued (key : Str) (axis : Int)
  | cbInvoked (errored : Bool)
  | opFinish (axis : Int)
deriving Repr, DecidableEq

/-- Embeds `Impl::CallbackTask` (the future is identified by its slot id). -/
structure CallbackTask where
  key : Str
  axis : Int
  slot : Nat
deriving Repr, DecidableEq

/-- Embeds the callback overload `MotorController::sendAsync(cmd, params, cb)`
(lines 324-367): register pending, encode, enqueue; on enqueue failure fail
one pending slot for the key and invoke the callback with the error; on
success fire onOperationStart for movement commands with parsed axis ≥ 0 and
queue the task for the callback worker.  `writerOk` abstracts whether
`writer->enqueue` returns normally or throws. -/
def sendAsyncCb (cmd : Str) (params : List Str) (writerOk : Bool) (s : Dispatcher.State) :
    (List Event × Option CallbackTask) × Dispatcher.State :=
  let key := makeKey cmd params
  let reg := Dispatcher.addPending key s
  let line := CommandBuilder.makeCommand cmd params false
  if writerOk then
    let axis := parseAxisFromParams params
    let evs :=
      [Event.enqueued line]
        ++ (if cmd ∈ movementCommands ∧ 0 ≤ axis then [Event.opStart axis] else [])
        ++ [Event.taskQueued key axis]
    ((evs, some ⟨key, axis, reg.1⟩), reg.2)
  else
    let rem := Dispatcher.removePendingWithException key "enqueue failed".data reg.2
    (([Event.cbInvoked true], none), rem.2)

/-- Embeds one iteration of the callback worker loop in
`MotorController::start` (lines 162-213) for a dequeued task: the user
callback is dispatched with the resolved reply or error, then
onOperationFinish(axis) fires whenever the task's parsed axis is ≥ 0. -/
def workerProcess (t : CallbackTask) (errored : Bool) : List Event :=
  [Event.cbInvoked errored] ++ (if 0 ≤ t.axis then [Event.opFinish t.axis] else [])

/-- Embeds the future overload `MotorController::sendAsync(cmd, params)`
(lines 301-322): register pending, encode, enqueue; on enqueue failure call
`removePendingWithException` for the key and rethrow.  Returns the future's
slot id or the thrown error, together with the slots failed by this call. -/
def sendAsync (cmd : Str) (params : List Str) (writerOk : Bool) (s : Dispatcher.State) :
    (Except Str Nat × List (Nat × Str)) × Dispatcher.State :=
  let key := makeKey cmd params
  let reg := Dispatcher.addPending key s
  if writerOk then
    ((Except.ok reg.1, []), reg.2)
  else
    let rem := Dispatcher.removePendingWithException key "enqueue failed".data reg.2
    ((Except.error "enqueue failed".data, rem.1.toList), rem.2)

/-- Embeds the disconnect handler installed by `MotorController::start`
(lines 152-157): cancel every pending promise with "TCP disconnected". -/
def onDisconnect (s : Dispatcher.State) : List (Nat × Str) × Dispatcher.State :=
  Dispatcher.cancelAllPendingWithException "TCP disconnected".data s

/-- The axis string a submitted command contributes to its correlation key:
the literal first parameter, with a missing first parameter read as the
empty string (the same normalization `makeKey` applies). -/
def submitAxisOf : List Str → Str
  | [] => []
  | p0 :: _ => p0

end MotorController

namespace Writer

/-- Embeds the Writer queue state (src/comm/Writer.cpp). -/
structure State where
  queue : List Str
  maxQueueSize : Nat
  stopRequested : Bool
deriving Repr, DecidableEq

/-- Embeds the Writer constructor's capacity clamp max(1, maxQueueSize). -/
def init (maxQueueSize : Nat) : State :=
  { queue := [], maxQueueSize := max 1 maxQueueSize, stopRequested := false }

/-- Outcome of the blocking `Writer::enqueue` viewed from the caller. -/
inductive EnqueueResult where
  | pushed (s : State)
  | stopped
  | blocked
deriving Repr, DecidableEq

/-- Embeds `Writer::enqueue` (lines 49-62): the call waits on cv_not_full_
until stop is requested or the queue has space; once released it throws when
stop was requested and otherwise appends.  With no concurrent consumer the
at-capacity case never returns: `blocked`.  `stopped` models the throw. -/
def enqueue (s : State) (line : Str) : EnqueueResult :=
  if s.stopRequested then EnqueueResult.stopped
  else if s.queue.length < s.maxQueueSize then
    EnqueueResult.pushed { s with queue := s.queue ++ [line] }
  else EnqueueResult.blocked

/-- Embeds `Writer::tryEnqueue` (lines 64-71): false when stop was requested
or the queue is at capacity, otherwise append and return true. -/
def tryEnqueue (s : State) (line : Str) : Bool × State :=
  if s.stopRequested then (false, s)
  else if s.queue.length ≥ s.maxQueueSize then (false, s)
  else (true, { s with queue := s.queue ++ [line] })

end Writer

namespace KohzuManager

/-- Digit-accumulating core of std::to_string, structural on a fuel bound. -/
def natToStrGo : Nat → Nat → Str → Str
  | 0, _, acc => acc
  | fuel + 1, n, acc =>
    if n = 0 then acc else natToStrGo fuel (n / 10) (Nat.digitChar (n % 10) :: acc)

/-- Decimal rendering of a Nat, as std::to_string produces it. -/
def natToStr (n : Nat) : Str :=
  if n = 0 then ['0'] else natToStrGo (n + 1) n []

/-- std::to_string on integers: minus sign then decimal digits. -/
def intToStr (i : Int) : Str :=
  if i < 0 then '-' :: natToStr i.natAbs else natToStr i.toNat

/-- The Manager state the operation-lifecycle counter lives in
(src/controller/KohzuManager.cpp): the active-operations counter and
whether the Poller is running. -/
structure MgrState where
  activeOperations : Int
  pollerRunning : Bool
deriving Repr, DecidableEq

/-- Embeds `KohzuManager::notifyOperationStarted` (lines 191-200):
fetch_add(1), and when the previous value was 0 start the Poller. -/
def notifyOperationStarted (s : MgrState) : MgrState :=
  let prev := s.activeOperations
  let s1 : MgrState := { s with activeOperations := prev + 1 }
  if prev = 0 then { s1 with pollerRunning := true } else s1

/-- Embeds `KohzuManager::notifyOperationFinished` (lines 202-213):
fetch_sub(1); when the decremented value is ≤ 0 the counter is overwritten
with 0 and the Poller is stopped. -/
def notifyOperationFinished (s : MgrState) : MgrState :=
  let now := s.activeOperations - 1
  if now ≤ 0 then { activeOperations := 0, pollerRunning := false }
  else { s with activeOperations := now }

/-- A lifecycle notification. -/
inductive OpNote where
  | started
  | finished
deriving Repr, DecidableEq

/-- Apply a sequence of lifecycle notifications to the Manager state. -/
def applyNotes (s : MgrState) : List OpNote → MgrState
  | [] => s
  | OpNote.started :: rest => applyNotes (notifyOperationStarted s) rest
  | OpNote.finished :: rest => applyNotes (notifyOperationFinished s) rest

/-- The parameter vector built by `KohzuManager::moveAbsoluteAsync`
(lines 306-311): [axis, speedTable, absolutePosition, responseMethod],
each through std::to_string. -/
def moveAbsoluteAsyncParams (axis absolutePosition speedTable responseMethod : Int) :
    List Str :=
  [intToStr axis, intToStr speedTable, intToStr absolutePosition, intToStr responseMethod]

/-- The outbound line produced by `KohzuManager::moveAbsoluteAsync`: when
connected it sends "APS" with the parameter vector above through
`MotorController::sendAsync`, which encodes via CommandBuilder::makeCommand
with includeSTX = false; when not connected nothing is sent. -/
def moveAbsoluteAsyncLine (connected : Bool)
    (axis absolutePosition speedTable responseMethod : Int) : Option Str :=
  if connected then
    some (CommandBuilder.makeCommand "APS".data
      (moveAbsoluteAsyncParams axis absolutePosition speedTable responseMethod) false)
  else none

end KohzuManager

/-! ## Supporting lemmas -/

namespace Dispatcher

theorem lookupSlots_eq_nil_of_not_mem (p : List (Str × List Nat)) (key : Str)
    (h : key ∉ p.map Prod.fst) : lookupSlots p key = [] := by
  induction p with
  | nil => rfl
  | cons e rest ih =>
    simp only [List.map_cons, List.mem_cons, not_or] at h
    simp only [lookupSlots]
    rw [if_neg (fun hk => h.1 hk.symm)]
    exact ih h.2

theorem popSlot_fst (p : List (Str × List Nat)) (key : Str) :
    (popSlot p key).1 = (lookupSlots p key).head? := by
  induction p with
  | nil => rfl
  | cons e rest ih =>
    obtain ⟨k, q⟩ := e
    by_cases hk : k = key
    · cases q <;> simp [popSlot, lookupSlots, hk]
    · simp [popSlot, lookupSlots, hk, ih]

theorem popSlot_keys_sublist (p : List (Str × List Nat)) (key : Str) :
    ((popSlot p key).2.map Prod.fst).Sublist (p.map Prod.fst) := by
  induction p with
  | nil => simp [popSlot]
  | cons e rest ih =>
    obtain ⟨k, q⟩ := e
    by_cases hk : k = key
    · match q with
      | [] => simp [popSlot, hk]
      | h :: t =>
        by_cases ht : t = []
        · simp [popSlot, hk, ht]
        · simp [popSlot, hk, ht]
    · simpa [popSlot, hk] using ih.cons₂ k

theorem keysNodup_popSlot (p : List (Str × List Nat)) (key : Str)
    (h : keysNodup p) : keysNodup (popSlot p key).2 :=
  List.Nodup.sublist (popSlot_keys_sublist p key) h

theorem popSlot_lookupSlots (p : List (Str × List Nat)) (key : Str)
    (h : keysNodup p) :
    lookupSlots (popSlot p key).2 key = (lookupSlots p key).tail := by
  induction p with
  | nil => rfl
  | cons e rest ih =>
    obtain ⟨k, q⟩ := e
    have hnd : keysNodup rest := (List.nodup_cons.mp h).2
    by_cases hk : k = key
    · have hnm : key ∉ rest.map Prod.fst := by
        subst hk
        exact (List.nodup_cons.mp h).1
      match q with
      | [] => simp [popSlot, lookupSlots, hk]
      | h0 :: t =>
        by_cases ht : t = []
        · subst ht
          simp [popSlot, lookupSlots, hk, lookupSlots_eq_nil_of_not_mem rest key hnm]
        · simp [popSlot, lookupSlots, hk, ht]
    · simp [popSlot, lookupSlots, hk, ih hnd]

theorem lookupSlots_pushSlot (p : List (Str × List Nat)) (key : Str) (i : Nat) :
    lookupSlots (pushSlot p key i) key = lookupSlots p key ++ [i] := by
  induction p with
  | nil => simp [pushSlot, lookupSlots]
  | cons e rest ih =>
    obtain ⟨k, q⟩ := e
    by_cases hk : k = key
    · simp [pushSlot, lookupSlots, hk]
    · simp [pushSlot, lookupSlots, hk, ih]

theorem runFulfills_zip (key : Str) (replies : List Parser.Response) :
    ∀ s : State, keysNodup s.pending →
      (runFulfills key replies s).1 = (lookupSlots s.pending key).zip replies := by
  induction replies with
  | nil => intro s _; simp [runFulfills]
  | cons r rs ih =>
    intro s hnd
    have hfst : (popSlot s.pending key).1 = (lookupSlots s.pending key).head? :=
      popSlot_fst s.pending key
    have hnd1 : keysNodup (popSlot s.pending key).2 := keysNodup_popSlot s.pending key hnd
    have htail : lookupSlots (popSlot s.pending key).2 key = (lookupSlots s.pending key).tail :=
      popSlot_lookupSlots s.pending key hnd
    rcases hlk : lookupSlots s.pending key with _ | ⟨h0, t⟩
    · rw [hlk] at hfst htail
      simp only [runFulfills, tryFulfill, hfst, List.head?_nil]
      rw [ih _ hnd1]
      simp [htail]
    · rw [hlk] at hfst htail
      simp only [runFulfills, tryFulfill, hfst, List.head?_cons]
      rw [ih _ hnd1]
      simp [htail]

theorem mem_flatMap_of_mem_lookupSlots (p : List (Str × List Nat)) (key : Str)
    (i : Nat) (h : i ∈ lookupSlots p key) : i ∈ p.flatMap (fun e => e.2) := by
  induction p with
  | nil => simp [lookupSlots] at h
  | cons e rest ih =>
    obtain ⟨k, q⟩ := e
    by_cases hk : k = key
    · simp only [lookupSlots, if_pos hk] at h
      simp [h]
    · simp only [lookupSlots, if_neg hk] at h
      simp [ih h]

end Dispatcher

namespace CommandBuilder

theorem joinLoop_false_cons (p : Str) (rest : List Str) :
    joinLoop (p :: rest) false = '/' :: joinLoop (p :: rest) true := by
  simp [joinLoop]

theorem joinLoop_true_eq (params : List Str) :
    joinLoop params true = joinedBySlash (params.map sanitize) := by
  induction params with
  | nil => rfl
  | cons p rest ih =>
    cases rest with
    | nil => simp [joinLoop, joinedBySlash]
    | cons q rs =>
      rw [joinLoop, joinLoop_false_cons, ih]
      simp [joinedBySlash]

end CommandBuilder

namespace MotorController

theorem recvKey_inj (cmd a b : Str) : recvKey cmd a = recvKey cmd b ↔ a = b := by
  by_cases ha : a = [] <;> by_cases hb : b = [] <;>
    simp [recvKey, ha, hb]

end MotorController

namespace KohzuManager

theorem applyNotes_nonneg (notes : List OpNote) :
    ∀ s : MgrState, 0 ≤ s.activeOperations →
      0 ≤ (applyNotes s notes).activeOperations := by
  induction notes with
  | nil => intro s h; exact h
  | cons n rest ih =>
    intro s h
    cases n with
    | started =>
      apply ih
      by_cases hp : s.activeOperations = 0 <;>
        simp [notifyOperationStarted, hp] <;> omega
    | finished =>
      apply ih
      by_cases hn : s.activeOperations - 1 ≤ 0 <;>
        simp [notifyOperationFinished, hn] <;> omega

end KohzuManager

/-! ## Claim theorems -/

/-- C1: for every correlation key K the pending slots form a FIFO queue:
addPending appends the new completion slot at the tail of K's queue, and
folding tryFulfill over the replies that arrive for K pops head slots in
order, so the sequence of (slot, reply) completions observed by waiters
equals the registered slots paired with the matching replies in arrival
order — the n-th matching reply completes the n-th pending request. -/
theorem dispatcher_pending_fifo (s : Dispatcher.State) (key : Str)
    (replies : List Parser.Response) (h : Dispatcher.keysNodup s.pending) :
    Dispatcher.lookupSlots ((Dispatcher.addPending key s).2.pending) key
        = Dispatcher.lookupSlots s.pending key ++ [s.nextId]
    ∧ (Dispatcher.runFulfills key replies s).1
        = (Dispatcher.lookupSlots s.pending key).zip replies :=
  ⟨Dispatcher.lookupSlots_pushSlot s.pending key s.nextId,
   Dispatcher.runFulfills_zip key replies s h⟩

/-- Witness for C1: two slots pending under key RDP:2; the replies carrying
42 and 43 complete slots 0 and 1 in that order (spec scenario 2). -/
theorem dispatcher_pending_fifo_witness :
    Dispatcher.keysNodup ([("RDP:2".data, [0, 1])] : List (Str × List Nat))
    ∧ (Dispatcher.lookupSlots
          ((Dispatcher.addPending "RDP:2".data ⟨[("RDP:2".data, [0, 1])], 2⟩).2.pending)
          "RDP:2".data = [0, 1, 2]
      ∧ (Dispatcher.runFulfills "RDP:2".data
            [Parser.parse "C\tRDP2\t42".data, Parser.parse "C\tRDP2\t43".data]
            ⟨[("RDP:2".data, [0, 1])], 2⟩).1
          = [(0, Parser.parse "C\tRDP2\t42".data), (1, Parser.parse "C\tRDP2\t43".data)]) :=
  ⟨by unfold Dispatcher.keysNodup; decide,
   dispatcher_pending_fifo ⟨[("RDP:2".data, [0, 1])], 2⟩ "RDP:2".data
     [Parser.parse "C\tRDP2\t42".data, Parser.parse "C\tRDP2\t43".data]
     (by unfold Dispatcher.keysNodup; decide)⟩

/-- C2 counterexample: the claimed `<CMD>:<axis-or--1>` key shape is not what
the code computes when no axis parameter is present: for the axis-less CERR
command both the submit-side key and the reply-side key are the bare
mnemonic "CERR", not "CERR:-1" — no "-1" placeholder is ever appended. -/
theorem correlation_key_counterexample :
    MotorController.makeKey "CERR".data [] = "CERR".data
    ∧ MotorController.recvKey "CERR".data [] = "CERR".data
    ∧ MotorController.makeKey "CERR".data [] ≠ "CERR:-1".data := by
  decide

/-- C2 amended: both sides compute the key as the mnemonic alone when the
axis is absent or empty and as `<CMD>:<axis>` otherwise (no "-1"
placeholder); the submit-side key equals the reply-side key exactly when the
literal first parameter (missing normalized to empty) equals the parsed
axis string. -/
theorem correlation_key_agreement (cmd : Str) (params : List Str) (axis : Str) :
    MotorController.makeKey cmd params
        = MotorController.recvKey cmd (MotorController.submitAxisOf params)
    ∧ (MotorController.makeKey cmd params = MotorController.recvKey cmd axis
        ↔ MotorController.submitAxisOf params = axis) := by
  have hshape : MotorController.makeKey cmd params
      = MotorController.recvKey cmd (MotorController.submitAxisOf params) := by
    cases params with
    | nil => rfl
    | cons p0 ps =>
      by_cases hp : p0 = [] <;>
        simp [MotorController.makeKey, MotorController.recvKey,
          MotorController.submitAxisOf, hp]
  exact ⟨hshape, by rw [hshape]; exact MotorController.recvKey_inj cmd _ axis⟩

/-- C5 counterexample: with the queue at capacity (2 entries, capacity 2)
and stop not requested, the blocking `Writer::enqueue` does not return an
Overflow indication — it waits on cv_not_full_ (modelled `blocked`) — and
the only non-blocking path, `Writer::tryEnqueue`, reports a bare `false`
that does not distinguish Overflow from Stopped. -/
theorem writer_enqueue_at_capacity_counterexample :
    Writer.enqueue ⟨["a".data, "b".data], 2, false⟩ "c".data
        = Writer.EnqueueResult.blocked
    ∧ Writer.tryEnqueue ⟨["a".data, "b".data], 2, false⟩ "c".data
        = (false, ⟨["a".data, "b".data], 2, false⟩) := by
  decide

/-- C5 amended: the blocking `enqueue` throws a stopped error once stop has
been requested and blocks (does not return) while the queue is at capacity;
the non-blocking `tryEnqueue` returns false immediately — without modifying
the queue — when stop was requested or the queue is at capacity, and
otherwise appends the line and reports true. -/
theorem writer_enqueue_behavior (s : Writer.State) (line : Str) :
    (s.stopRequested = true →
      Writer.enqueue s line = Writer.EnqueueResult.stopped
      ∧ Writer.tryEnqueue s line = (false, s))
    ∧ (s.stopRequested = false → s.maxQueueSize ≤ s.queue.length →
      Writer.enqueue s line = Writer.EnqueueResult.blocked
      ∧ Writer.tryEnqueue s line = (false, s))
    ∧ (s.stopRequested = false → s.queue.length < s.maxQueueSize →
      Writer.enqueue s line = Writer.EnqueueResult.pushed { s with queue := s.queue ++ [line] }
      ∧ Writer.tryEnqueue s line = (true, { s with queue := s.queue ++ [line] })) := by
  refine ⟨fun hs => ?_, fun hs hf => ?_, fun hs hr => ?_⟩
  · simp [Writer.enqueue, Writer.tryEnqueue, hs]
  · have h1 : ¬ s.queue.length < s.maxQueueSize := by omega
    simp [Writer.enqueue, Writer.tryEnqueue, hs, h1, hf]
  · have h2 : ¬ s.queue.length ≥ s.maxQueueSize := by omega
    simp [Writer.enqueue, Writer.tryEnqueue, hs, h2, hr]

/-- Witness for C5 amended: the three regimes at concrete states — stopped,
at capacity, and with free space. -/
theorem writer_enqueue_behavior_witness :
    (Writer.enqueue ⟨[], 2, true⟩ "x".data = Writer.EnqueueResult.stopped
      ∧ Writer.tryEnqueue ⟨[], 2, true⟩ "x".data = (false, ⟨[], 2, true⟩))
    ∧ (Writer.enqueue ⟨["a".data, "b".data], 2, false⟩ "x".data = Writer.EnqueueResult.blocked
      ∧ Writer.tryEnqueue ⟨["a".data, "b".data], 2, false⟩ "x".data
          = (false, ⟨["a".data, "b".data], 2, false⟩))
    ∧ (Writer.enqueue ⟨["a".data], 2, false⟩ "x".data
          = Writer.EnqueueResult.pushed ⟨["a".data, "x".data], 2, false⟩
      ∧ Writer.tryEnqueue ⟨["a".data], 2, false⟩ "x".data
          = (true, ⟨["a".data, "x".data], 2, false⟩)) :=
  ⟨(writer_enqueue_behavior ⟨[], 2, true⟩ "x".data).1 rfl,
   (writer_enqueue_behavior ⟨["a".data, "b".data], 2, false⟩ "x".data).2.1 rfl (by decide),
   (writer_enqueue_behavior ⟨["a".data], 2, false⟩ "x".data).2.2 rfl (by decide)⟩

/-- C6 (code bug evidence): with an earlier caller's slot 0 already pending
under key RDP:2, a sendAsync("RDP", ["2"]) whose enqueue is rejected fails
slot 0 — the head of the key's queue, registered by the other caller — and
leaves its own freshly registered slot 1 pending, because
removePendingWithException pops the front of the deque rather than the slot
the failing call added. -/
theorem sendAsync_enqueue_failure_pops_head :
    (MotorController.sendAsync "RDP".data ["2".data] false
        ⟨[("RDP:2".data, [0])], 1⟩).1.2
      = [(0, "enqueue failed".data)]
    ∧ Dispatcher.lookupSlots
        (MotorController.sendAsync "RDP".data ["2".data] false
          ⟨[("RDP:2".data, [0])], 1⟩).2.pending "RDP:2".data
      = [1] := by
  decide

/-- C7: the disconnect handler cancels every pending slot across all keys —
each slot pending under any key is resolved with the "TCP disconnected"
error — and afterwards the pending map is empty. -/
theorem disconnect_fails_all_pending (s : Dispatcher.State) (key k : Str) (i : Nat)
    (h : i ∈ Dispatcher.lookupSlots s.pending key) :
    (i, "TCP disconnected".data) ∈ (MotorController.onDisconnect s).1
    ∧ Dispatcher.lookupSlots (MotorController.onDisconnect s).2.pending k = [] := by
  refine ⟨?_, rfl⟩
  exact List.mem_map_of_mem _ (Dispatcher.mem_flatMap_of_mem_lookupSlots s.pending key i h)

/-- Witness for C7: slot 7 pending under STR:1 is failed with the
disconnect error, and afterwards no key (e.g. RDP:9) has pending slots. -/
theorem disconnect_fails_all_pending_witness :
    (7, "TCP disconnected".data)
        ∈ (MotorController.onDisconnect ⟨[("STR:1".data, [7])], 8⟩).1
    ∧ Dispatcher.lookupSlots
        (MotorController.onDisconnect ⟨[("STR:1".data, [7])], 8⟩).2.pending
        "RDP:9".data = [] :=
  disconnect_fails_all_pending ⟨[("STR:1".data, [7])], 8⟩ "STR:1".data "RDP:9".data 7
    (by decide)

/-- C8 counterexample: the codec has no empty-command guard — encoding an
empty command with no parameters emits the line consisting of CRLF alone,
whose command field is empty, refuting "the codec never emits an empty
command". -/
theorem makeCommand_empty_command :
    CommandBuilder.makeCommand [] [] false = ['\r', '\n'] := by
  decide

/-- C8 amended: encode produces the command followed — when the parameter
list is non-empty — by exactly one TAB and the CR/LF-sanitized parameters
joined by '/', terminated by CRLF (the spec-shaped rendering
makeCommandSpec); the line's command field is exactly the cmd argument, so
it is non-empty precisely when the caller passes a non-empty command —
there is no guard making it non-empty otherwise. -/
theorem makeCommand_structure (cmd : Str) (params : List Str) :
    CommandBuilder.makeCommand cmd params false = CommandBuilder.makeCommandSpec cmd params
    ∧ (CommandBuilder.makeCommand cmd params false).take cmd.length = cmd := by
  have hspec : CommandBuilder.makeCommand cmd params false
      = CommandBuilder.makeCommandSpec cmd params := by
    cases params with
    | nil => simp [CommandBuilder.makeCommand, CommandBuilder.makeCommandSpec]
    | cons p rest =>
      simp [CommandBuilder.makeCommand, CommandBuilder.makeCommandSpec,
        CommandBuilder.joinLoop_true_eq]
  refine ⟨hspec, ?_⟩
  simp [CommandBuilder.makeCommand, List.take_left']

/-- C9: move_absolute_async sends APS with parameters ordered
[axis, speed, pos, response_method]: for axis=1, pos=1000, speed=0,
response_method=0 the outbound line is exactly "APS\t1/0/1000/0\r\n", and
for the fully-distinct instance axis=2, pos=3, speed=4, response_method=5
the line "APS\t2/4/3/5\r\n" pins every field position. -/
theorem moveAbsolute_line_exact :
    KohzuManager.moveAbsoluteAsyncLine true 1 1000 0 0 = some "APS\t1/0/1000/0\r\n".data
    ∧ KohzuManager.moveAbsoluteAsyncLine true 2 3 4 5 = some "APS\t2/4/3/5\r\n".data := by
  decide

/-- C10: the Manager's active-operations counter stays non-negative:
notifyOperationStarted adds one; notifyOperationFinished, whenever the
decrement would reach or pass zero, stores exactly 0 and stops the Poller;
hence any sequence of notifications from a non-negative counter — surplus
finishes included — never drives the counter below zero. -/
theorem manager_active_counter_nonneg (s : KohzuManager.MgrState)
    (notes : List KohzuManager.OpNote) (h : 0 ≤ s.activeOperations) :
    (KohzuManager.notifyOperationStarted s).activeOperations = s.activeOperations + 1
    ∧ (s.activeOperations - 1 ≤ 0 →
        KohzuManager.notifyOperationFinished s
          = { activeOperations := 0, pollerRunning := false })
    ∧ 0 ≤ (KohzuManager.applyNotes s notes).activeOperations := by
  refine ⟨?_, fun hle => ?_, KohzuManager.applyNotes_nonneg notes s h⟩
  · by_cases hp : s.activeOperations = 0 <;>
      simp [KohzuManager.notifyOperationStarted, hp]
  · simp [KohzuManager.notifyOperationFinished, hle]

/-- Witness for C10: from a fresh Manager (counter 0), two surplus finish
notifications, a start, and a finish leave the counter at 0, never
negative. -/
theorem manager_active_counter_nonneg_witness :
    (KohzuManager.notifyOperationStarted ⟨0, false⟩).activeOperations = 0 + 1
    ∧ KohzuManager.notifyOperationFinished ⟨0, false⟩
        = { activeOperations := 0, pollerRunning := false }
    ∧ 0 ≤ (KohzuManager.applyNotes ⟨0, false⟩
        [KohzuManager.OpNote.finished, KohzuManager.OpNote.finished,
         KohzuManager.OpNote.started, KohzuManager.OpNote.finished]).activeOperations :=
  ⟨(manager_active_counter_nonneg ⟨0, false⟩ [] (by decide)).1,
   (manager_active_counter_nonneg ⟨0, false⟩ [] (by decide)).2.1 (by decide),
   (manager_active_counter_nonneg ⟨0, false⟩
     [KohzuManager.OpNote.finished, KohzuManager.OpNote.finished,
      KohzuManager.OpNote.started, KohzuManager.OpNote.finished] (by decide)).2.2⟩

/-- C4 counterexample: two concrete refutations of the claimed lifecycle.
For the movement command APS with axis 1 and an accepting writer, the event
trace shows the line enqueued BEFORE on_start(1) fires — the claim says
on_start fires before the enqueue.  And the worker fires on_finish(1) for a
task whose command RDP is NOT in the movement set (its parsed axis 1 is
≥ 0 suffices in the code) — the claim says on_finish fires only for
movement-set commands. -/
theorem motor_callback_lifecycle_counterexample :
    (MotorController.sendAsyncCb "APS".data ["1".data] true ⟨[], 0⟩).1.1
      = [MotorController.Event.enqueued "APS\t1\r\n".data,
         MotorController.Event.opStart 1,
         MotorController.Event.taskQueued "APS:1".data 1]
    ∧ MotorController.workerProcess ⟨"RDP:1".data, 1, 0⟩ true
      = [MotorController.Event.cbInvoked true, MotorController.Event.opFinish 1]
    ∧ "RDP".data ∉ MotorController.movementCommands := by
  decide

/-- C4 amended: in the callback form of send_async with an accepting writer,
the encoded line is enqueued first; on_start(axis) fires — after the
enqueue, before the task is queued — exactly when the mnemonic is in the
movement set and params[0] stoi-parses to an axis ≥ 0; and when the worker
processes a task the user callback is dispatched first and on_finish(axis)
fires afterwards exactly when the task's parsed axis is ≥ 0, whether or not
the command was a movement command, even when the delivered reply is an
error. -/
theorem motor_callback_lifecycle (cmd : Str) (params : List Str) (s : Dispatcher.State)
    (t : MotorController.CallbackTask) (errored : Bool) (a : Int) :
    (MotorController.sendAsyncCb cmd params true s).1.1.head?
        = some (MotorController.Event.enqueued (CommandBuilder.makeCommand cmd params false))
    ∧ (MotorController.Event.opStart a ∈ (MotorController.sendAsyncCb cmd params true s).1.1
        ↔ (cmd ∈ MotorController.movementCommands
            ∧ 0 ≤ MotorController.parseAxisFromParams params
            ∧ a = MotorController.parseAxisFromParams params))
    ∧ (MotorController.workerProcess t errored).head?
        = some (MotorController.Event.cbInvoked errored)
    ∧ (MotorController.Event.opFinish a ∈ MotorController.workerProcess t errored
        ↔ (0 ≤ t.axis ∧ a = t.axis)) := by
  refine ⟨?_, ?_, ?_, ?_⟩
  · simp [MotorController.sendAsyncCb]
  · by_cases hc : cmd ∈ MotorController.movementCommands
        ∧ 0 ≤ MotorController.parseAxisFromParams params
    · simp [MotorController.sendAsyncCb, hc, hc.1, hc.2]
    · apply iff_of_false
      · simp [MotorController.sendAsyncCb, hc]
      · rintro ⟨h1, h2, _⟩
        exact hc ⟨h1, h2⟩
  · simp [MotorController.workerProcess]
  · by_cases ht : 0 ≤ t.axis
    · simp [MotorController.workerProcess, ht]
    · apply iff_of_false
      · simp [MotorController.workerProcess, ht]
      · rintro ⟨h1, _⟩
        exact ht h1

/-- C3 counterexample: for the line "C<TAB>SYSX<TAB>ERR42" the decoded
command is SYS and field[1] = "ERR42" is present and non-empty, yet the
resulting Reply has empty params (and is marked invalid): the non-digit
tail X after the three command letters makes the parser reject the line
before the SYS special handling runs, refuting "params = [field[1]] ...
regardless of whether the first field has a digit or non-digit tail". -/
theorem parser_sys_nondigit_tail_counterexample :
    (Parser.parse "C\tSYSX\tERR42".data).cmd = "SYS".data
    ∧ Parser.fieldsOf "C\tSYSX\tERR42".data = ["SYSX".data, "ERR42".data]
    ∧ (Parser.parse "C\tSYSX\tERR42".data).params = []
    ∧ (Parser.parse "C\tSYSX\tERR42".data).valid = false := by
  decide

/-- C3 amended: for every inbound line that parses as valid with decoded
command SYS (which requires the first field's tail after the three letters
to be empty or all digits), the Reply has an empty axis and exposes at most
one params entry — params = [field[1]] when field[1] is present and
non-empty, otherwise params is empty — regardless of how many trailing
fields the line carries; a non-digit tail instead yields an invalid Reply
with empty params. -/
theorem parser_sys_single_param (line : Str)
    (hv : (Parser.parse line).valid = true)
    (hc : (Parser.parse line).cmd = "SYS".data) :
    (Parser.parse line).axis = []
    ∧ (Parser.parse line).params.length ≤ 1
    ∧ (Parser.parse line).params =
        (match Parser.fieldsOf line with
         | _ :: f1 :: _ => if f1 = [] then [] else [f1]
         | _ => []) := by
  cases line with
  | nil => simp [Parser.parse] at hv
  | cons first rest0 =>
    simp only [Parser.parse] at hv hc ⊢
    (repeat' split at hv) <;> try simp_all
    all_goals ((repeat' split) <;> try simp_all) <;> try omega

/-- Witness for C3 amended: the spontaneous-error line "E<TAB>SYS<TAB>0x1234"
(spec scenario 3) parses as a valid SYS reply with empty axis and the single
params entry "0x1234". -/
theorem parser_sys_single_param_witness :
    (Parser.parse "E\tSYS\t0x1234".data).axis = []
    ∧ (Parser.parse "E\tSYS\t0x1234".data).params.length ≤ 1
    ∧ (Parser.parse "E\tSYS\t0x1234".data).params =
        (match Parser.fieldsOf "E\tSYS\t0x1234".data with
         | _ :: f1 :: _ => if f1 = [] then [] else [f1]
         | _ => []) :=
  parser_sys_single_param "E\tSYS\t0x1234".data (by decide) (by decide)
